import Mathlib

set_option synthInstance.maxSize 1000
set_option maxRecDepth 10000
set_option maxHeartbeats 1000000

/-!
Verification of the plate-optimization backend (optimizer_logic.py).

Tags are represented by their quantity (the QTY field): the seeding and
modelling algorithms inspect nothing else of a tag, and the pass-through
display fields (COLOR, SIZE, ...) never affect the optimization.

The CP-SAT model built by solve_plate_optimization is embedded as a
predicate FeasibleAssignment over an assignment of values to the model's
decision variables; each conjunct mirrors one model.Add / domain
declaration of the source.  The greedy seeder (assign_ups_proportional,
initial_balanced_partition, initial_balanced_partition_no_singles,
greedy_initialize) is embedded as executable functions; the two
while-loops of assign_ups_proportional are given explicit fuel that the
termination theorem shows to be sufficient (the loop exit conditions are
reached), and the ZeroDivisionError raised on a zero-total group is
modelled by an Option result.  The solution callback and the final
return value of solve_plate_optimization are embedded as a fold over the
sequence of solutions the external solver reports.
-/

/-- First index of the minimum of a list together with the minimum value,
mirroring the Python idiom `plate_loads.index(min(plate_loads))`.
Returns (minimum value, first index attaining it); (0, 0) on []. -/
def minWithIdx : List Nat → Nat × Nat
  | [] => (0, 0)
  | [x] => (x, 0)
  | x :: y :: t =>
    let p := minWithIdx (y :: t)
    if x ≤ p.1 then (x, 0) else (p.1, p.2 + 1)

/-- First index of the maximum of a list together with the maximum value,
mirroring `raw_ups.index(max(raw_ups))`. -/
def maxWithIdx : List Nat → Nat × Nat
  | [] => (0, 0)
  | [x] => (x, 0)
  | x :: y :: t =>
    let p := maxWithIdx (y :: t)
    if p.1 ≤ x then (x, 0) else (p.1, p.2 + 1)

def idxOfMin (l : List Nat) : Nat := (minWithIdx l).2

def idxOfMax (l : List Nat) : Nat := (maxWithIdx l).2

/-- Python's round() on the exact rational num/den: round half to even
(banker's rounding).  Requires den > 0 to be meaningful; the caller
`assign_ups_proportional` divides by a group's total quantity and raises
ZeroDivisionError when that total is 0, modelled there by Option. -/
def roundHalfEven (num den : Nat) : Nat :=
  let q := num / den
  let r := num % den
  if 2 * r < den then q
  else if den < 2 * r then q + 1
  else if q % 2 = 0 then q else q + 1

/-- One iteration of the increment loop of assign_ups_proportional:
`raw_ups[raw_ups.index(min(raw_ups))] += 1`. -/
def incrStep (l : List Nat) : List Nat :=
  l.set (idxOfMin l) (l.getD (idxOfMin l) 0 + 1)

/-- The increment loop `while sum(raw_ups) < ups_per_plate`, with explicit
fuel; fuel U is shown sufficient for any non-empty list of positive
entries (see the termination theorem). -/
def incLoop : Nat → Nat → List Nat → List Nat
  | 0, _, l => l
  | f + 1, U, l => if l.sum < U then incLoop f U (incrStep l) else l

/-- One decrement `raw_ups[max_index] -= 1`. -/
def decStep (l : List Nat) : List Nat :=
  l.set (idxOfMax l) (l.getD (idxOfMax l) 0 - 1)

/-- The decrement loop `while sum(raw_ups) > ups_per_plate`, which
decrements the first maximal entry when it exceeds 1 and otherwise
breaks; explicit fuel, shown sufficient. -/
def decLoop : Nat → Nat → List Nat → List Nat
  | 0, _, l => l
  | f + 1, U, l =>
    if U < l.sum then
      if 1 < l.getD (idxOfMax l) 0 then decLoop f U (decStep l) else l
    else l

/-- assign_ups_proportional(group, ups_per_plate).  A group whose total
quantity is 0 makes the Python code divide by zero (ZeroDivisionError),
modelled as none.  Otherwise each tag gets max(1, round(qty/total * U))
and the two balancing loops run. -/
def assign_ups_proportional (g : List Nat) (U : Nat) : Option (List Nat) :=
  if g.sum = 0 then none
  else
    let raw := g.map (fun q => max 1 (roundHalfEven (q * U) g.sum))
    let l1 := incLoop U U raw
    some (decLoop l1.sum U l1)

/-- Stable insertion of q into a descending-sorted list: q goes before
the first element strictly smaller than it, so among equal quantities
earlier elements stay first. -/
def insertDesc (q : Nat) : List Nat → List Nat
  | [] => [q]
  | x :: xs => if x ≤ q then q :: x :: xs else x :: insertDesc q xs

/-- sorted(tags, key=lambda t: t['QTY'], reverse=True): a stable
descending sort; extensionally equal to Python's stable Timsort for the
quantity key. -/
def sortQtyDesc : List Nat → List Nat
  | [] => []
  | x :: xs => insertDesc x (sortQtyDesc xs)

/-- The first (distribution) pass shared by both partition functions:
each tag, in descending-quantity order, is appended to the plate group
with the currently lowest accumulated quantity load.  Returns the groups
together with the load list.  With plateCount = 0 and a non-empty tag
list the source raises ValueError on the first iteration (min() of the
empty plate_loads); that error path is modelled as none at
greedy_initialize, the pipeline entry point, so the partition helpers
themselves stay total (their value at that unreachable argument is
never relied on by a theorem). -/
def distributePass (sorted : List Nat) (P : Nat) : List (List Nat) × List Nat :=
  sorted.foldl
    (fun st q =>
      let j := idxOfMin st.2
      (st.1.set j (st.1.getD j [] ++ [q]), st.2.set j (st.2.getD j 0 + q)))
    (List.replicate P [], List.replicate P 0)

/-- initial_balanced_partition(tags, plate_count). -/
def initial_balanced_partition (tags : List Nat) (P : Nat) : List (List Nat) :=
  (distributePass (sortQtyDesc tags) P).1

/-- The second (repair) pass of initial_balanced_partition_no_singles:
`for i in range(len(plates))`, any plate holding exactly one tag has that
tag evicted (its load reset to 0) and re-appended to the plate whose load
is now minimal.  The iteration count is the (constant) number of plates. -/
def repairPass : Nat → Nat → List (List Nat) × List Nat → List (List Nat) × List Nat
  | 0, _, st => st
  | k + 1, i, (plates, loads) =>
    match plates.getD i [] with
    | [t] =>
      let plates1 := plates.set i []
      let loads1 := loads.set i 0
      let j := idxOfMin loads1
      repairPass k (i + 1)
        (plates1.set j (plates1.getD j [] ++ [t]), loads1.set j (loads1.getD j 0 + t))
    | _ => repairPass k (i + 1) (plates, loads)

/-- initial_balanced_partition_no_singles(tags, plate_count): the
distribution pass followed by the single-tag repair pass. -/
def initial_balanced_partition_no_singles (tags : List Nat) (P : Nat) : List (List Nat) :=
  let st := distributePass (sortQtyDesc tags) P
  (repairPass st.1.length 0 st).1

/-- The partition greedy_initialize selects: the no-singles variant for
more than 100 tags, the plain balanced partition otherwise. -/
def partitionOf (tags : List Nat) (P : Nat) : List (List Nat) :=
  if 100 < tags.length then initial_balanced_partition_no_singles tags P
  else initial_balanced_partition tags P

/-- The seeding loop of greedy_initialize: for each non-empty plate group
(at its plate index), compute the ups distribution and emit one
(tag quantity, plate index, ups) triple per tag.  A failing group
(ZeroDivisionError in assign_ups_proportional) aborts the whole run. -/
def seedGroups (U : Nat) : List (List Nat) → Nat → Option (List (Nat × Nat × Nat))
  | [], _ => some []
  | g :: gs, pidx =>
    if g.isEmpty then seedGroups U gs (pidx + 1)
    else
      match assign_ups_proportional g U with
      | none => none
      | some ups =>
        match seedGroups U gs (pidx + 1) with
        | none => none
        | some rest => some (((g.zip ups).map (fun t => (t.1, pidx, t.2))) ++ rest)

/-- greedy_initialize(tags, ups_per_plate, plate_count).  When
plate_count = 0 and the tag list is non-empty, both partition functions
execute plate_loads.index(min(plate_loads)) with plate_loads empty and
min() raises ValueError, modelled as none; with no tags the distribution
loop never runs and the seeder returns the empty assignment. -/
def greedy_initialize (tags : List Nat) (U P : Nat) : Option (List (Nat × Nat × Nat)) :=
  if P = 0 ∧ tags ≠ [] then none
  else seedGroups U (partitionOf tags P) 0

/-- A valuation of the decision variables of the CP-SAT model built by
solve_plate_optimization: tag_to_plate, ups_vars, plate_sheets,
plate_used and tag_on_plate.  Only indices below the tag/plate counts
are constrained. -/
structure CpAssignment where
  tagPlate : Nat → Nat
  ups : Nat → Nat
  plateSheets : Nat → Nat
  plateUsed : Nat → Bool
  tagOnPlate : Nat → Nat → Bool

/-- The model's per-plate tag count: value of tag_count_plate_j, the sum
of the tag_on_plate indicators. -/
def tagCountOn (n : Nat) (a : CpAssignment) (j : Nat) : Nat :=
  (List.range n).countP (fun i => a.tagOnPlate i j)

/-- The model's total_ups_plate_j: sum of the products
ups_i * tag_on_plate[i][j]. -/
def upsSumOn (n : Nat) (a : CpAssignment) (j : Nat) : Nat :=
  ((List.range n).map (fun i => if a.tagOnPlate i j then a.ups i else 0)).sum

/-- Number of tags whose tag_to_plate value is j, as the materialization
in the solution callback reads assignments. -/
def assignedCount (n : Nat) (a : CpAssignment) (j : Nat) : Nat :=
  ((List.range n).filter (fun i => a.tagPlate i == j)).length

/-- Sum of ups over the tags whose tag_to_plate value is j. -/
def assignedUpsSum (n : Nat) (a : CpAssignment) (j : Nat) : Nat :=
  (((List.range n).filter (fun i => a.tagPlate i == j)).map a.ups).sum

/-- sum(self.Value(s) for s in self.plate_sheets): the objective value
and the totalSheets summary field, summed over all plates. -/
def totalSheetsOf (P : Nat) (a : CpAssignment) : Nat :=
  ((List.range P).map a.plateSheets).sum

/-- Sum of plate_sheets over the plates whose plate_used is true. -/
def usedSheetSum (P : Nat) (a : CpAssignment) : Nat :=
  (((List.range P).filter (fun j => a.plateUsed j)).map a.plateSheets).sum

/-- Sum of plate_sheets over the plates whose plate_used is false. -/
def unusedSheetSum (P : Nat) (a : CpAssignment) : Nat :=
  (((List.range P).filter (fun j => !a.plateUsed j)).map a.plateSheets).sum

def unusedPlateCount (P : Nat) (a : CpAssignment) : Nat :=
  ((List.range P).filter (fun j => !a.plateUsed j)).length

/-- The constraints of the model built by solve_plate_optimization, one
conjunct per variable-domain declaration or model.Add call:
variable domains (tag_to_plate in [0, plate_count-1], ups_vars in
[1, ups_per_plate], plate_sheets in [1, 10000]); the two-directional
reification of tag_on_plate; the product variable prod_tag_i_plate_j
with domain [1, 1000000] equal to plate_sheets[j] * ups_vars[i]; the
conditional capacity constraint; the two-directional link between
plate_used and the tag_on_plate disjunction; the total-ups variable with
domain [0, ups_per_plate] forced to ups_per_plate on used plates and 0
on unused ones; and the size-dependent occupancy block.  In the small
branch (at most 100 tags) only_one_tag and under_utilized are reified in
both directions while forbidden_combo is constrained only by
AddBoolAnd([only_one_tag, under_utilized]).OnlyEnforceIf(forbidden_combo)
and forbidden_combo == 0, exactly as in the source. -/
@[reducible]
def FeasibleAssignment (qtys : List Nat) (U P : Nat) (a : CpAssignment) : Prop :=
  (∀ i < qtys.length, a.tagPlate i < P) ∧
  (∀ i < qtys.length, 1 ≤ a.ups i ∧ a.ups i ≤ U) ∧
  (∀ j < P, 1 ≤ a.plateSheets j ∧ a.plateSheets j ≤ 10000) ∧
  (∀ i < qtys.length, ∀ j < P, (a.tagOnPlate i j = true ↔ a.tagPlate i = j)) ∧
  (∀ i < qtys.length, ∀ j < P,
      1 ≤ a.plateSheets j * a.ups i ∧ a.plateSheets j * a.ups i ≤ 1000000) ∧
  (∀ i < qtys.length, ∀ j < P,
      a.tagOnPlate i j = true → qtys.getD i 0 ≤ a.plateSheets j * a.ups i) ∧
  (∀ j < P, a.plateUsed j = true → ∃ i < qtys.length, a.tagOnPlate i j = true) ∧
  (∀ j < P, a.plateUsed j = false → ∀ i < qtys.length, a.tagOnPlate i j = false) ∧
  (∀ j < P, upsSumOn qtys.length a j ≤ U) ∧
  (∀ j < P, a.plateUsed j = true → upsSumOn qtys.length a j = U) ∧
  (∀ j < P, a.plateUsed j = false → upsSumOn qtys.length a j = 0) ∧
  (100 < qtys.length →
    ∀ j < P,
      (a.plateUsed j = true → 2 ≤ tagCountOn qtys.length a j) ∧
      (tagCountOn qtys.length a j = 1 → a.plateUsed j = false)) ∧
  (¬ 100 < qtys.length →
    ∀ j < P, ∃ o u f : Bool,
      (o = true ↔ tagCountOn qtys.length a j = 1) ∧
      (u = true ↔ upsSumOn qtys.length a j = U) ∧
      (f = true → o = true ∧ u = true) ∧ f = false)

/-- One row of the materialized results list built by
PlateOptimizationCallback.on_solution_callback. -/
structure ResultRow where
  qty : Nat
  plate : Nat
  optimalUps : Nat
  sheetsNeeded : Nat
  qtyProduced : Nat
  excess : Int
deriving DecidableEq, Inhabited

/-- The result rows contributed by plate j: one row per tag whose
tag_to_plate value equals j, in tag order, with
produced = ups * sheets and EXCESS = produced - QTY. -/
def rowsOnPlate (qtys : List Nat) (a : CpAssignment) (j : Nat) : List ResultRow :=
  (List.range qtys.length).filterMap (fun i =>
    if a.tagPlate i = j then
      some
        { qty := qtys.getD i 0
          plate := j
          optimalUps := a.ups i
          sheetsNeeded := a.plateSheets j
          qtyProduced := a.ups i * a.plateSheets j
          excess := (a.ups i * a.plateSheets j : Int) - (qtys.getD i 0 : Int) }
    else none)

/-- The full results list: plates in index order, tags in index order
within each plate, as the callback's nested loops produce them. -/
def materializeResults (qtys : List Nat) (P : Nat) (a : CpAssignment) : List ResultRow :=
  ((List.range P).map (rowsOnPlate qtys a)).flatten

/-- The summary block of a materialized solution.  wastePercentage, a
rounded float, is omitted: no claim depends on it. -/
structure SummaryBlock where
  totalSheets : Nat
  totalProduced : Nat
  totalExcess : Int
  totalPlates : Nat
  totalItems : Nat
  upsCapacity : Nat
deriving DecidableEq

/-- A materialized best solution (results plus summary). -/
structure PlateSolution where
  results : List ResultRow
  summary : SummaryBlock
deriving DecidableEq

/-- Materialization of one improving solution inside
on_solution_callback. -/
def materializeSolution (qtys : List Nat) (U P : Nat) (a : CpAssignment) : PlateSolution :=
  let rows := materializeResults qtys P a
  let produced := (rows.map (fun r => r.qtyProduced)).sum
  { results := rows
    summary :=
      { totalSheets := totalSheetsOf P a
        totalProduced := produced
        totalExcess := (produced : Int) - (qtys.sum : Int)
        totalPlates := P
        totalItems := qtys.sum
        upsCapacity := U } }

/-- The mutable state of PlateOptimizationCallback: best_obj starts at
float('inf'), modelled as none; best_solution starts at None. -/
structure TrackerState where
  bestObj : Option Nat
  bestSolution : Option PlateSolution
  solutionCount : Nat
deriving DecidableEq

def initTracker : TrackerState := { bestObj := none, bestSolution := none, solutionCount := 0 }

/-- obj < self.best_obj, where best_obj = float('inf') initially. -/
def improves : Option Nat → Nat → Bool
  | none, _ => true
  | some b, o => o < b

/-- One invocation of on_solution_callback on a solver-reported
assignment: count it, and if the objective strictly improves, replace
the best solution with the freshly materialized one. -/
def onSolutionCallback (qtys : List Nat) (U P : Nat) (st : TrackerState)
    (a : CpAssignment) : TrackerState :=
  let st1 : TrackerState := { st with solutionCount := st.solutionCount + 1 }
  if improves st1.bestObj (totalSheetsOf P a) then
    { st1 with
      bestObj := some (totalSheetsOf P a)
      bestSolution := some (materializeSolution qtys U P a) }
  else st1

/-- The tracker state after the solver has reported the given sequence
of solutions. -/
def runCallbacks (qtys : List Nat) (U P : Nat) (cands : List CpAssignment) : TrackerState :=
  cands.foldl (onSolutionCallback qtys U P) initTracker

/-- The value solve_plate_optimization returns. -/
inductive SolveOutput where
  | solution : PlateSolution → SolveOutput
  | failure : String → SolveOutput
deriving DecidableEq

/-- The tail of solve_plate_optimization: return cb.best_solution when
present (the materialized dictionary is always non-empty, so Python
truthiness coincides with presence), else the error object
with message "No solution found". -/
def solveReturn (st : TrackerState) : SolveOutput :=
  match st.bestSolution with
  | some s => SolveOutput.solution s
  | none => SolveOutput.failure "No solution found"

/-- End-to-end outcome of solve_plate_optimization given the sequence of
feasible solutions the external solver reports to the callback.  Model
construction in the source performs no input validation and raises
nothing, so the outcome depends only on the callback activity. -/
def solveOutcome (qtys : List Nat) (U P : Nat) (cands : List CpAssignment) : SolveOutput :=
  solveReturn (runCallbacks qtys U P cands)

/-! ### List helper lemmas -/

theorem minWithIdx_snd_lt : ∀ (l : List Nat), l ≠ [] → (minWithIdx l).2 < l.length
  | [], h => absurd rfl h
  | [x], _ => by simp [minWithIdx]
  | x :: y :: t, _ => by
    have ih := minWithIdx_snd_lt (y :: t) (by simp)
    simp only [minWithIdx, List.length_cons] at ih ⊢
    split
    · simp
    · omega

theorem maxWithIdx_snd_lt : ∀ (l : List Nat), l ≠ [] → (maxWithIdx l).2 < l.length
  | [], h => absurd rfl h
  | [x], _ => by simp [maxWithIdx]
  | x :: y :: t, _ => by
    have ih := maxWithIdx_snd_lt (y :: t) (by simp)
    simp only [maxWithIdx, List.length_cons] at ih ⊢
    split
    · simp
    · omega

theorem maxWithIdx_getD : ∀ (l : List Nat), l ≠ [] → l.getD (maxWithIdx l).2 0 = (maxWithIdx l).1
  | [], h => absurd rfl h
  | [x], _ => by simp [maxWithIdx]
  | x :: y :: t, _ => by
    have ih := maxWithIdx_getD (y :: t) (by simp)
    simp only [maxWithIdx]
    split
    · simp
    · simpa using ih

theorem le_maxWithIdx_fst : ∀ (l : List Nat), ∀ v ∈ l, v ≤ (maxWithIdx l).1
  | [x], v, hv => by
    simp at hv
    simp [maxWithIdx, hv]
  | x :: y :: t, v, hv => by
    have ih := le_maxWithIdx_fst (y :: t)
    simp only [maxWithIdx]
    rcases List.mem_cons.mp hv with rfl | hv2
    · split
      · simp
      · next h => exact le_of_lt (by omega)
    · have := ih v hv2
      split
      · next h => simpa using le_trans this h
      · simpa using this

theorem sum_set_succ : ∀ (l : List Nat) (i : Nat), i < l.length →
    (l.set i (l.getD i 0 + 1)).sum = l.sum + 1
  | [], i, h => by simp at h
  | x :: xs, 0, _ => by
    simp [List.sum_cons]
    omega
  | x :: xs, i + 1, h => by
    have ih := sum_set_succ xs i (by simpa using h)
    simp only [List.set_cons_succ, List.getD_cons_succ, List.sum_cons]
    omega

theorem sum_set_pred : ∀ (l : List Nat) (i : Nat), i < l.length → 1 ≤ l.getD i 0 →
    (l.set i (l.getD i 0 - 1)).sum + 1 = l.sum
  | [], i, h, _ => by simp at h
  | x :: xs, 0, _, hge => by
    simp only [List.getD_cons_zero] at hge
    simp [List.sum_cons]
    omega
  | x :: xs, i + 1, h, hge => by
    have ih := sum_set_pred xs i (by simpa using h) (by simpa using hge)
    simp only [List.set_cons_succ, List.getD_cons_succ, List.sum_cons]
    omega

theorem sum_map_filter_eq_sum_ite (f : Nat → Nat) (p : Nat → Bool) :
    ∀ l : List Nat, ((l.filter p).map f).sum = (l.map (fun i => if p i then f i else 0)).sum
  | [] => rfl
  | x :: xs => by
    have ih := sum_map_filter_eq_sum_ite f p xs
    cases h : p x <;> simp [List.filter_cons, h, ih]

theorem sum_filter_add_not (f : Nat → Nat) (p : Nat → Bool) :
    ∀ l : List Nat,
      ((l.filter p).map f).sum + ((l.filter (fun x => !p x)).map f).sum = (l.map f).sum
  | [] => rfl
  | x :: xs => by
    have ih := sum_filter_add_not f p xs
    cases h : p x <;> simp [List.filter_cons, h] <;> omega

theorem length_le_sum : ∀ l : List Nat, (∀ x ∈ l, 1 ≤ x) → l.length ≤ l.sum
  | [], _ => Nat.le_refl 0
  | x :: xs, h => by
    have ih := length_le_sum xs (fun y hy => h y (List.mem_cons_of_mem _ hy))
    have hx := h x (List.mem_cons_self _ _)
    simp only [List.length_cons, List.sum_cons]
    omega

/-! ### Balancing loop lemmas -/

theorem incrStep_sum (l : List Nat) (hl : l ≠ []) : (incrStep l).sum = l.sum + 1 :=
  sum_set_succ l (idxOfMin l) (minWithIdx_snd_lt l hl)

theorem incrStep_length (l : List Nat) : (incrStep l).length = l.length :=
  List.length_set l _ _

theorem decStep_sum (l : List Nat) (hl : l ≠ []) (hge : 1 ≤ l.getD (idxOfMax l) 0) :
    (decStep l).sum + 1 = l.sum :=
  sum_set_pred l (idxOfMax l) (maxWithIdx_snd_lt l hl) hge

theorem incLoop_length : ∀ (f U : Nat) (l : List Nat), (incLoop f U l).length = l.length
  | 0, _, _ => rfl
  | f + 1, U, l => by
    simp only [incLoop]
    split
    · rw [incLoop_length f U (incrStep l), incrStep_length]
    · rfl

theorem incLoop_sum : ∀ (f U : Nat) (l : List Nat), l ≠ [] → U ≤ l.sum + f →
    (incLoop f U l).sum = max l.sum U
  | 0, U, l, _, h => by
    simp only [incLoop]
    omega
  | f + 1, U, l, hl, h => by
    simp only [incLoop]
    split
    · next hlt =>
      have hne : incrStep l ≠ [] := by
        have := incrStep_length l
        intro he
        rw [he] at this
        simp at this
        exact hl (List.length_eq_zero.mp this.symm)
      have hs := incrStep_sum l hl
      have ih := incLoop_sum f U (incrStep l) hne (by omega)
      rw [ih, hs]
      omega
    · next hge => omega

theorem incLoop_mem_ge_one : ∀ (f U : Nat) (l : List Nat),
    (∀ x ∈ l, 1 ≤ x) → ∀ x ∈ incLoop f U l, 1 ≤ x
  | 0, _, _, h => h
  | f + 1, U, l, h => by
    simp only [incLoop]
    split
    · apply incLoop_mem_ge_one f U (incrStep l)
      intro x hx
      rcases List.mem_or_eq_of_mem_set hx with hm | rfl
      · exact h x hm
      · omega
    · exact h

theorem decLoop_length : ∀ (f U : Nat) (l : List Nat), (decLoop f U l).length = l.length
  | 0, _, _ => rfl
  | f + 1, U, l => by
    simp only [decLoop]
    split
    · split
      · rw [decLoop_length f U (decStep l)]
        exact List.length_set l _ _
      · rfl
    · rfl

theorem decLoop_mem_ge_one : ∀ (f U : Nat) (l : List Nat),
    (∀ x ∈ l, 1 ≤ x) → ∀ x ∈ decLoop f U l, 1 ≤ x
  | 0, _, _, h => h
  | f + 1, U, l, h => by
    simp only [decLoop]
    split
    · split
      · next hgt =>
        apply decLoop_mem_ge_one f U (decStep l)
        intro x hx
        rcases List.mem_or_eq_of_mem_set hx with hm | rfl
        · exact h x hm
        · omega
      · exact h
    · exact h

theorem decLoop_spec : ∀ (f U : Nat) (l : List Nat),
    (∀ x ∈ l, 1 ≤ x) → U ≤ l.sum → l.sum ≤ U + f →
    ((decLoop f U l).sum = U ∨ ∀ x ∈ decLoop f U l, x = 1)
  | 0, U, l, _, h1, h2 => by
    simp only [decLoop]
    omega
  | f + 1, U, l, hge, h1, h2 => by
    simp only [decLoop]
    split
    · next hUlt =>
      have hl : l ≠ [] := by
        intro he
        rw [he] at hUlt
        simp at hUlt
      split
      · next hgt =>
        have hsum := decStep_sum l hl (by omega)
        apply decLoop_spec f U (decStep l)
        · intro x hx
          rcases List.mem_or_eq_of_mem_set hx with hm | rfl
          · exact hge x hm
          · omega
        · omega
        · omega
      · next hng =>
        right
        intro x hx
        have hle := le_maxWithIdx_fst l x hx
        have hgd := maxWithIdx_getD l hl
        have hx1 := hge x hx
        unfold idxOfMax at hng
        omega
    · next h => omega

/-! ### assign_ups_proportional and seeding lemmas -/

theorem assign_ups_some (g : List Nat) (U : Nat) (hs : g.sum ≠ 0) :
    ∃ r, assign_ups_proportional g U = some r ∧ r.length = g.length ∧
      (∀ x ∈ r, 1 ≤ x) ∧ (r.sum = U ∨ ∀ x ∈ r, x = 1) := by
  have hg : g ≠ [] := by
    intro h
    rw [h] at hs
    exact hs rfl
  have hrawne : g.map (fun q => max 1 (roundHalfEven (q * U) g.sum)) ≠ [] := by
    simpa using hg
  have hrawge : ∀ x ∈ g.map (fun q => max 1 (roundHalfEven (q * U) g.sum)), 1 ≤ x := by
    intro x hx
    obtain ⟨q, _, rfl⟩ := List.mem_map.mp hx
    exact le_max_left 1 _
  set raw := g.map (fun q => max 1 (roundHalfEven (q * U) g.sum)) with hraw
  have hl1ne : incLoop U U raw ≠ [] := by
    intro he
    have := incLoop_length U U raw
    rw [he] at this
    exact hrawne (List.length_eq_zero.mp this.symm)
  have hl1sum : (incLoop U U raw).sum = max raw.sum U :=
    incLoop_sum U U raw hrawne (by omega)
  have hl1ge : ∀ x ∈ incLoop U U raw, 1 ≤ x := incLoop_mem_ge_one U U raw hrawge
  have hdec := decLoop_spec (incLoop U U raw).sum U (incLoop U U raw) hl1ge
    (by omega) (by omega)
  refine ⟨decLoop (incLoop U U raw).sum U (incLoop U U raw), ?_, ?_, ?_, hdec⟩
  · simp only [assign_ups_proportional, if_neg hs]
  · rw [decLoop_length, incLoop_length, hraw, List.length_map]
  · exact decLoop_mem_ge_one _ U _ hl1ge

theorem seedGroups_spec : ∀ (gs : List (List Nat)) (U pidx : Nat),
    (∀ g ∈ gs, g ≠ [] → g.sum ≠ 0) →
    ∃ l, seedGroups U gs pidx = some l ∧ ∀ t ∈ l, 1 ≤ t.2.2
  | [], U, pidx, _ => ⟨[], rfl, by simp⟩
  | g :: gs, U, pidx, h => by
    have hrest := seedGroups_spec gs U (pidx + 1)
      (fun g' hg' => h g' (List.mem_cons_of_mem _ hg'))
    obtain ⟨rest, hrest_eq, hrest_ge⟩ := hrest
    simp only [seedGroups]
    by_cases hemp : g.isEmpty
    · rw [if_pos hemp]
      exact ⟨rest, hrest_eq, hrest_ge⟩
    · rw [if_neg hemp]
      have hgne : g ≠ [] := by
        intro he
        rw [he] at hemp
        exact hemp rfl
      obtain ⟨r, hr_eq, _, hr_ge, _⟩ :=
        assign_ups_some g U (h g (List.mem_cons_self _ _) hgne)
      rw [hr_eq, hrest_eq]
      refine ⟨_, rfl, ?_⟩
      intro t ht
      rcases List.mem_append.mp ht with hm | hm
      · obtain ⟨⟨q, u⟩, hqu, rfl⟩ := List.mem_map.mp hm
        exact hr_ge u (List.of_mem_zip hqu).2
      · exact hrest_ge t hm

/-! ### Model-side lemmas -/

theorem tagPlate_beq_eq_tagOnPlate (qtys : List Nat) (U P : Nat) (a : CpAssignment)
    (hf : FeasibleAssignment qtys U P a) (j : Nat) (hj : j < P)
    (i : Nat) (hi : i < qtys.length) :
    (a.tagPlate i == j) = a.tagOnPlate i j := by
  have h := hf.2.2.2.1 i hi j hj
  by_cases hpq : a.tagPlate i = j
  · rw [h.mpr hpq]
    exact beq_iff_eq.mpr hpq
  · have hfalse : a.tagOnPlate i j = false := by
      cases hb : a.tagOnPlate i j
      · rfl
      · exact absurd (h.mp hb) hpq
    rw [hfalse]
    exact beq_eq_false_iff_ne.mpr hpq

theorem assignedUpsSum_eq_upsSumOn (qtys : List Nat) (U P : Nat) (a : CpAssignment)
    (hf : FeasibleAssignment qtys U P a) (j : Nat) (hj : j < P) :
    assignedUpsSum qtys.length a j = upsSumOn qtys.length a j := by
  unfold assignedUpsSum upsSumOn
  rw [sum_map_filter_eq_sum_ite]
  apply congrArg List.sum
  apply List.map_congr_left
  intro i hi
  rw [tagPlate_beq_eq_tagOnPlate qtys U P a hf j hj i (List.mem_range.mp hi)]

theorem assignedCount_eq_tagCountOn (qtys : List Nat) (U P : Nat) (a : CpAssignment)
    (hf : FeasibleAssignment qtys U P a) (j : Nat) (hj : j < P) :
    assignedCount qtys.length a j = tagCountOn qtys.length a j := by
  unfold assignedCount tagCountOn
  rw [List.countP_eq_length_filter]
  apply congrArg List.length
  apply List.filter_congr
  intro i hi
  rw [tagPlate_beq_eq_tagOnPlate qtys U P a hf j hj i (List.mem_range.mp hi)]

/-! ### Tracker lemmas -/

theorem onSolutionCallback_isSome (qtys : List Nat) (U P : Nat) (st : TrackerState)
    (a : CpAssignment) (h : st.bestSolution.isSome) :
    ((onSolutionCallback qtys U P st a).bestSolution).isSome := by
  simp only [onSolutionCallback]
  split
  · rfl
  · exact h

theorem onSolutionCallback_isSome_of_obj_none (qtys : List Nat) (U P : Nat)
    (st : TrackerState) (a : CpAssignment) (h : st.bestObj = none) :
    ((onSolutionCallback qtys U P st a).bestSolution).isSome := by
  simp only [onSolutionCallback, improves]
  rw [h]
  rfl

theorem foldl_callback_isSome (qtys : List Nat) (U P : Nat) :
    ∀ (cands : List CpAssignment) (st : TrackerState), st.bestSolution.isSome →
      ((cands.foldl (onSolutionCallback qtys U P) st).bestSolution).isSome
  | [], _, h => h
  | a :: cs, st, h =>
    foldl_callback_isSome qtys U P cs _ (onSolutionCallback_isSome qtys U P st a h)

/-! ### Concrete assignments used as witnesses and counterexamples -/

/-- One tag of quantity 1 on plate 0 with 1 ups and 1 sheet; feasible for
the instance qtys = [1], upsPerPlate = 1, plateCount = 1. -/
def exOneTag : CpAssignment :=
  { tagPlate := fun _ => 0
    ups := fun _ => 1
    plateSheets := fun _ => 1
    plateUsed := fun _ => true
    tagOnPlate := fun _ _ => true }

/-- One tag of quantity 1 on plate 0, plate 1 unused with 1 sheet;
feasible for qtys = [1], upsPerPlate = 1, plateCount = 2. -/
def exTwoPlates : CpAssignment :=
  { tagPlate := fun _ => 0
    ups := fun _ => 1
    plateSheets := fun _ => 1
    plateUsed := fun j => j == 0
    tagOnPlate := fun i j => i == 0 && j == 0 }

/-- One tag of quantity 1 alone on plate 0 with 2 ups (the full
upsPerPlate = 2) and 1 sheet: a fully saturated single-tag plate;
feasible for qtys = [1], upsPerPlate = 2, plateCount = 1. -/
def exSaturatedSingle : CpAssignment :=
  { tagPlate := fun _ => 0
    ups := fun _ => 2
    plateSheets := fun _ => 1
    plateUsed := fun _ => true
    tagOnPlate := fun _ _ => true }

/-- 102 tags of quantity 1 all on plate 0, 1 ups each, 1 sheet; feasible
for qtys = List.replicate 102 1, upsPerPlate = 102, plateCount = 1,
which is the large-instance mode (more than 100 tags). -/
def exLarge : CpAssignment :=
  { tagPlate := fun _ => 0
    ups := fun _ => 1
    plateSheets := fun _ => 1
    plateUsed := fun _ => true
    tagOnPlate := fun _ _ => true }

/-! ### Claim theorems -/

/-- Claim C1: in every assignment satisfying the model's constraints,
every tag on a plate satisfies plateSheets * ups >= quantity, and every
EXCESS field in the materialized results is non-negative. -/
theorem c1_capacity_gives_nonneg_excess (qtys : List Nat) (U P : Nat) (a : CpAssignment)
    (hf : FeasibleAssignment qtys U P a) :
    (∀ i < qtys.length, ∀ j < P, a.tagOnPlate i j = true →
        qtys.getD i 0 ≤ a.plateSheets j * a.ups i) ∧
    (∀ r ∈ materializeResults qtys P a, 0 ≤ r.excess) := by
  have h4 := hf.2.2.2.1
  have h6 := hf.2.2.2.2.2.1
  refine ⟨h6, ?_⟩
  intro r hr
  unfold materializeResults at hr
  rw [List.mem_flatten] at hr
  obtain ⟨rows, hrows, hrmem⟩ := hr
  rw [List.mem_map] at hrows
  obtain ⟨j, hjmem, rfl⟩ := hrows
  have hj : j < P := List.mem_range.mp hjmem
  unfold rowsOnPlate at hrmem
  rw [List.mem_filterMap] at hrmem
  obtain ⟨i, himem, hsome⟩ := hrmem
  have hi : i < qtys.length := List.mem_range.mp himem
  by_cases hpl : a.tagPlate i = j
  · rw [if_pos hpl] at hsome
    have hrow := (Option.some.injEq _ _).mp hsome
    subst hrow
    have hcap := h6 i hi j hj ((h4 i hi j hj).mpr hpl)
    show (0 : Int) ≤ (a.ups i * a.plateSheets j : Int) - (qtys.getD i 0 : Int)
    rw [sub_nonneg]
    exact_mod_cast Nat.mul_comm (a.plateSheets j) (a.ups i) ▸ hcap
  · rw [if_neg hpl] at hsome
    exact absurd hsome (by simp)

/-- Witness for C1 at the concrete instance qtys = [1], U = 1, P = 1. -/
theorem c1_capacity_gives_nonneg_excess_witness :
    [1].getD 0 0 ≤ exOneTag.plateSheets 0 * exOneTag.ups 0 :=
  (c1_capacity_gives_nonneg_excess [1] 1 1 exOneTag (by decide)).1 0 (by decide)
    0 (by decide) (by decide)

/-- Claim C2: in every assignment satisfying the model's constraints, a
used plate carries tags whose ups values sum to exactly upsPerPlate, and
an unused plate carries no tags (its ups sum is 0). -/
theorem c2_used_plate_exactly_saturated (qtys : List Nat) (U P : Nat) (a : CpAssignment)
    (hf : FeasibleAssignment qtys U P a) :
    ∀ j < P,
      (a.plateUsed j = true → assignedUpsSum qtys.length a j = U) ∧
      (a.plateUsed j = false →
        assignedCount qtys.length a j = 0 ∧ assignedUpsSum qtys.length a j = 0) := by
  intro j hj
  have hse := assignedUpsSum_eq_upsSumOn qtys U P a hf j hj
  have hce := assignedCount_eq_tagCountOn qtys U P a hf j hj
  have h8 := hf.2.2.2.2.2.2.2.1
  have h10 := hf.2.2.2.2.2.2.2.2.2.1
  have h11 := hf.2.2.2.2.2.2.2.2.2.2.1
  refine ⟨fun hu => ?_, fun hnu => ⟨?_, ?_⟩⟩
  · rw [hse]
    exact h10 j hj hu
  · rw [hce]
    unfold tagCountOn
    rw [List.countP_eq_zero]
    intro i hi
    simp [h8 j hj hnu i (List.mem_range.mp hi)]
  · rw [hse]
    exact h11 j hj hnu

/-- Witness for C2 at qtys = [1], U = 1, P = 2: plate 0 used and
saturated, plate 1 unused and empty. -/
theorem c2_used_plate_exactly_saturated_witness :
    assignedUpsSum 1 exTwoPlates 0 = 1 ∧ assignedCount 1 exTwoPlates 1 = 0 :=
  ⟨((c2_used_plate_exactly_saturated [1] 1 2 exTwoPlates (by decide)) 0 (by decide)).1
      (by decide),
   (((c2_used_plate_exactly_saturated [1] 1 2 exTwoPlates (by decide)) 1 (by decide)).2
      (by decide)).1⟩

/-- Claim C3: when the instance has more than 100 tags, no assignment
satisfying the model's constraints puts exactly one tag on any plate:
the constraints tag_count == 1 implies not plate_used, and not
plate_used implies no tag on the plate, are jointly unsatisfiable with a
count of 1. -/
theorem c3_no_single_tag_plate_large (qtys : List Nat) (U P : Nat) (a : CpAssignment)
    (hn : 100 < qtys.length) (hf : FeasibleAssignment qtys U P a) :
    ∀ j < P, assignedCount qtys.length a j ≠ 1 ∧ tagCountOn qtys.length a j ≠ 1 := by
  intro j hj
  have hce := assignedCount_eq_tagCountOn qtys U P a hf j hj
  have h8 := hf.2.2.2.2.2.2.2.1
  have h12 := hf.2.2.2.2.2.2.2.2.2.2.2.1
  have hmain : tagCountOn qtys.length a j ≠ 1 := by
    intro hone
    have hnu : a.plateUsed j = false := (h12 hn j hj).2 hone
    have hzero : tagCountOn qtys.length a j = 0 := by
      unfold tagCountOn
      rw [List.countP_eq_zero]
      intro i hi
      simp [h8 j hj hnu i (List.mem_range.mp hi)]
    omega
  exact ⟨by rw [hce]; exact hmain, hmain⟩

/-- Witness for C3 at the 102-tag instance qtys = List.replicate 102 1,
U = 102, P = 1. -/
theorem c3_no_single_tag_plate_large_witness :
    assignedCount 102 exLarge 0 ≠ 1 :=
  ((c3_no_single_tag_plate_large (List.replicate 102 1) 102 1 exLarge (by decide)
      (by decide)) 0 (by decide)).1

/-- Claim C4 is false as stated: the counterexample exTwoPlates is
feasible for qtys = [1], U = 1, P = 2, yet the objective / totalSheets
value is 2 while the sum of plateSheets over used plates is 1 — the
unused plate contributes its plateSheets value 1, not nothing. -/
theorem c4_unused_plate_contributes_counterexample :
    FeasibleAssignment [1] 1 2 exTwoPlates ∧
    totalSheetsOf 2 exTwoPlates = 2 ∧ usedSheetSum 2 exTwoPlates = 1 := by
  refine ⟨by decide, by decide, by decide⟩

/-- Claim C4 amended: the objective and totalSheets equal the sum of
plateSheets over used plates plus the sum over unused plates, and since
every plateSheets variable has lower bound 1, the unused plates
contribute at least the number of unused plates (not zero). -/
theorem c4_objective_splits_used_unused (qtys : List Nat) (U P : Nat) (a : CpAssignment)
    (hf : FeasibleAssignment qtys U P a) :
    totalSheetsOf P a = usedSheetSum P a + unusedSheetSum P a ∧
    unusedPlateCount P a ≤ unusedSheetSum P a := by
  have h3 := hf.2.2.1
  constructor
  · unfold totalSheetsOf usedSheetSum unusedSheetSum
    exact (sum_filter_add_not a.plateSheets (fun j => a.plateUsed j) (List.range P)).symm
  · unfold unusedPlateCount unusedSheetSum
    have hone : ∀ x ∈ ((List.range P).filter (fun j => !a.plateUsed j)).map a.plateSheets,
        1 ≤ x := by
      intro x hx
      obtain ⟨j, hjmem, rfl⟩ := List.mem_map.mp hx
      have hj : j < P := List.mem_range.mp (List.mem_of_mem_filter hjmem)
      exact (h3 j hj).1
    calc ((List.range P).filter (fun j => !a.plateUsed j)).length
        = (((List.range P).filter (fun j => !a.plateUsed j)).map a.plateSheets).length :=
          (List.length_map _ _).symm
      _ ≤ (((List.range P).filter (fun j => !a.plateUsed j)).map a.plateSheets).sum :=
          length_le_sum _ hone

/-- Witness for the amended C4 at qtys = [1], U = 1, P = 2. -/
theorem c4_objective_splits_used_unused_witness :
    totalSheetsOf 2 exTwoPlates = usedSheetSum 2 exTwoPlates + unusedSheetSum 2 exTwoPlates ∧
    unusedPlateCount 2 exTwoPlates ≤ unusedSheetSum 2 exTwoPlates :=
  c4_objective_splits_used_unused [1] 1 2 exTwoPlates (by decide)

/-- Claim C5 is contradicted by the code: for 101 tags of quantity 1 and
51 plates, the distribution pass leaves plate 50 with exactly one tag,
and the repair pass reinserts the evicted tag into plate 50 itself
(after zeroing, plate 50 has the minimum load 0), so the returned
partition still contains exactly one single-tag group — despite the
function's docstring "avoids single-tag plates". -/
theorem c5_repair_pass_leaves_single_tag_group :
    ((initial_balanced_partition_no_singles (List.replicate 101 1) 51).filter
        (fun g => g.length == 1)).length = 1 ∧
    100 < (List.replicate 101 1 : List Nat).length := by
  refine ⟨by decide, by decide⟩

/-- Claim C6 is contradicted by the code: for the small instance
qtys = [1], U = 2, P = 1 the assignment exSaturatedSingle satisfies
every model constraint while plate 0 hosts exactly one tag and its ups
sum equals upsPerPlate = 2.  The small-instance block only posts
forbidden_combo -> (only_one_tag and under_utilized) together with
forbidden_combo == 0, which every assignment satisfies by taking
forbidden_combo false, so the combination the comment says to forbid is
not excluded. -/
theorem c6_saturated_single_tag_plate_feasible :
    FeasibleAssignment [1] 2 1 exSaturatedSingle ∧
    assignedCount 1 exSaturatedSingle 0 = 1 ∧
    tagCountOn 1 exSaturatedSingle 0 = 1 ∧
    assignedUpsSum 1 exSaturatedSingle 0 = 2 ∧
    upsSumOn 1 exSaturatedSingle 0 = 2 := by
  refine ⟨by decide, by decide, by decide, by decide, by decide⟩

/-- Claim C7: solve_plate_optimization returns the error object exactly
when the callback never recorded an improving solution.  Since best_obj
starts at infinity, the first reported solution always improves, so the
error is returned iff the solver reported no solution at all; otherwise
the returned value is precisely the tracker's best_solution. -/
theorem c7_error_iff_no_callback (qtys : List Nat) (U P : Nat)
    (cands : List CpAssignment) :
    (solveOutcome qtys U P cands = SolveOutput.failure "No solution found" ↔ cands = []) ∧
    (∀ s, solveOutcome qtys U P cands = SolveOutput.solution s →
        (runCallbacks qtys U P cands).bestSolution = some s) := by
  constructor
  · constructor
    · intro h
      cases cands with
      | nil => rfl
      | cons x xs =>
        exfalso
        have hsome : ((runCallbacks qtys U P (x :: xs)).bestSolution).isSome := by
          unfold runCallbacks
          rw [List.foldl_cons]
          exact foldl_callback_isSome qtys U P xs _
            (onSolutionCallback_isSome_of_obj_none qtys U P initTracker x rfl)
        unfold solveOutcome solveReturn at h
        rcases hb : (runCallbacks qtys U P (x :: xs)).bestSolution with _ | s
        · rw [hb] at hsome
          exact absurd hsome (by simp)
        · rw [hb] at h
          exact SolveOutput.noConfusion h
    · intro h
      subst h
      rfl
  · intro s hs
    unfold solveOutcome solveReturn at hs
    rcases hb : (runCallbacks qtys U P cands).bestSolution with _ | s'
    · rw [hb] at hs
      exact SolveOutput.noConfusion hs
    · rw [hb] at hs
      exact congrArg some (SolveOutput.solution.inj hs)

/-- Witness for C7 at the empty callback sequence on qtys = [1], U = 1,
P = 1. -/
theorem c7_error_iff_no_callback_witness :
    solveOutcome [1] 1 1 [] = SolveOutput.failure "No solution found" :=
  (c7_error_iff_no_callback [1] 1 1 []).1.mpr rfl

/-- Claim C8 is contradicted by the code: an input whose tags all have
quantity 0 makes assign_ups_proportional divide by the group's zero
total quantity, so the greedy seeder fails (returns none) instead of
completing with ups >= 1 for every tag; and a zero-quantity input with
plateCount = 0 fails earlier still, from min() of the empty plate_loads
list. -/
theorem c8_zero_quantity_group_fails :
    greedy_initialize [0, 0] 2 2 = none ∧ greedy_initialize [0] 1 1 = none ∧
    greedy_initialize [0] 1 0 = none := by
  refine ⟨by decide, by decide, by decide⟩

/-- Claim C8 amended: whenever the plate count is positive and every
non-empty group of the partition the seeder builds has positive total
quantity, greedy_initialize completes without error and assigns every
tag an ups value of at least 1; a group whose quantities are all zero
triggers the division-by-zero failure, and plateCount = 0 with tags
present triggers the ValueError from min() of the empty load list. -/
theorem c8_positive_groups_seed_ok (tags : List Nat) (U P : Nat) (hP : 0 < P)
    (hpos : ∀ g ∈ partitionOf tags P, g ≠ [] → 0 < g.sum) :
    ∃ l, greedy_initialize tags U P = some l ∧ ∀ t ∈ l, 1 ≤ t.2.2 := by
  unfold greedy_initialize
  rw [if_neg (fun h => Nat.pos_iff_ne_zero.mp hP h.1)]
  exact seedGroups_spec (partitionOf tags P) U 0
    (fun g hg hne => Nat.pos_iff_ne_zero.mp (hpos g hg hne))

/-- Witness for the amended C8 on an input that contains a
zero-quantity tag: tags = [2, 0], U = 2, P = 1. -/
theorem c8_positive_groups_seed_ok_witness :
    ∃ l, greedy_initialize [2, 0] 2 1 = some l ∧ ∀ t ∈ l, 1 ≤ t.2.2 :=
  c8_positive_groups_seed_ok [2, 0] 2 1 (by decide) (by decide)

/-- Claim C9 is contradicted by the code: with plateCount = 0 and
upsPerPlate = 0 on a non-empty tag list, model construction does not
fail (the source performs no validation; the empty variable domains
merely make the model unsatisfiable, so the solver reports no solution),
and the function returns exactly the generic no-solution error object —
indistinguishable from the ordinary no-solution outcome. -/
theorem c9_no_fail_fast_counterexample :
    (∀ a : CpAssignment, ¬ FeasibleAssignment [5] 0 0 a) ∧
    solveOutcome [5] 0 0 [] = SolveOutput.failure "No solution found" := by
  constructor
  · intro a hf
    have h1 := hf.1 0 (by simp)
    omega
  · rfl

/-- Claim C9 amended: for plateCount = 0 or upsPerPlate = 0 with a
non-empty tag list, no assignment satisfies the model, so whatever
(necessarily empty) solution sequence the solver reports, the function
returns the generic no-solution error, with no distinguishable
invalid-instance error and no fail-fast during construction. -/
theorem c9_invalid_instance_generic_error (qtys : List Nat) (U P : Nat)
    (cands : List CpAssignment) (hq : qtys ≠ []) (h0 : P = 0 ∨ U = 0)
    (hc : ∀ a ∈ cands, FeasibleAssignment qtys U P a) :
    solveOutcome qtys U P cands = SolveOutput.failure "No solution found" := by
  have hlen : 0 < qtys.length := List.length_pos.mpr hq
  have hnil : cands = [] := by
    cases cands with
    | nil => rfl
    | cons x xs =>
      exfalso
      have hf := hc x (List.mem_cons_self _ _)
      rcases h0 with rfl | rfl
      · have h1 := hf.1 0 hlen
        omega
      · have h2 := hf.2.1 0 hlen
        omega
  subst hnil
  rfl

/-- Witness for the amended C9 at qtys = [7], U = 0, P = 0 and the empty
solution sequence. -/
theorem c9_invalid_instance_generic_error_witness :
    solveOutcome [7] 0 0 [] = SolveOutput.failure "No solution found" :=
  c9_invalid_instance_generic_error [7] 0 0 [] (by simp) (Or.inl rfl) (by simp)

/-- Claim C10: for every non-empty group with positive total quantity
and upsPerPlate >= 1, assign_ups_proportional terminates with a result:
the increment loop raises the sum by exactly 1 per step (incrStep) until
the sum reaches upsPerPlate, and the decrement loop lowers the sum by
exactly 1 per step (decStep) or exits when the largest value is 1, so
the result sums exactly to upsPerPlate or is all ones. -/
theorem c10_balancing_loops_terminate (g : List Nat) (U : Nat)
    (hpos : 0 < g.sum) (_hU : 1 ≤ U) :
    (∃ r, assign_ups_proportional g U = some r ∧ r.length = g.length ∧
        (∀ x ∈ r, 1 ≤ x) ∧ (r.sum = U ∨ ∀ x ∈ r, x = 1)) ∧
    (∀ l : List Nat, l ≠ [] → (incrStep l).sum = l.sum + 1) ∧
    (∀ l : List Nat, l ≠ [] → 1 ≤ l.getD (idxOfMax l) 0 → (decStep l).sum + 1 = l.sum) := by
  refine ⟨assign_ups_some g U (by omega), incrStep_sum, decStep_sum⟩

/-- Witness for C10 at the group [3, 1] with U = 4. -/
theorem c10_balancing_loops_terminate_witness :
    ∃ r, assign_ups_proportional [3, 1] 4 = some r ∧ r.length = ([3, 1] : List Nat).length ∧
      (∀ x ∈ r, 1 ≤ x) ∧ (r.sum = 4 ∨ ∀ x ∈ r, x = 1) :=
  (c10_balancing_loops_terminate [3, 1] 4 (by decide) (by decide)).1
